import Mathlib

/-!
Verification development for the setlist predictor repository.

The repository has two Python modules:
- markov_model.py: builds a first-order Markov chain over observed song
  orderings (build_markov_chain), selects the most common opener, and
  generates a new setlist by a weighted random walk (generate_setlist).
- fetch_setlists.py: retrieves setlists from a paginated remote API with
  retry/backoff (get_with_backoff), resolves an artist by a ranked search
  (search_artist), paginates through the full history
  (fetch_all_setlists_for_artist), and flattens each nested setlist record
  into one row per song (normalize_setlist_to_rows).

The definitions below are a shallow embedding of that code: machine floats
become rationals, dictionaries become association lists or extracted
functions, randomness becomes injected streams of choices, and fallible
operations return Option.
-/

/-! ## Generic helpers -/

/-- Insert an element into a list sorted by the boolean relation le, placing
it before the first element y with le x y.  Used to model the stable
ascending sorts performed by pandas sort of values and Python sorted. -/
def insertLe {α : Type} (le : α → α → Bool) (x : α) : List α → List α
  | [] => [x]
  | y :: l => if le x y then x :: y :: l else y :: insertLe le x l

/-- Stable insertion sort by a boolean relation.  Elements are taken from the
right, so an element is inserted before any equal-key element that occurred
later in the input: with a reflexive total le this reproduces the order of a
stable ascending sort. -/
def sortLe {α : Type} (le : α → α → Bool) : List α → List α
  | [] => []
  | x :: l => insertLe le x (sortLe le l)

/-- Models Python str.split with a single-character separator, over the
character list of a string: no collapsing of adjacent separators, and the
empty string splits to a single empty field. -/
def splitChars (sep : Char) : List Char → List (List Char)
  | [] => [[]]
  | c :: rest =>
    let r := splitChars sep rest
    if c = sep then [] :: r
    else
      match r with
      | [] => [[c]]
      | h :: t => (c :: h) :: t

/-- Models Python str.split(sep) for a one-character sep. -/
def pySplit (s : String) (sep : Char) : List String :=
  (splitChars sep s.data).map String.mk

/-- Lexicographic order on character lists by code point, as Python compares
strings. -/
def charListLe : List Char → List Char → Bool
  | [], _ => true
  | _ :: _, [] => false
  | a :: as, b :: bs =>
    if a.toNat < b.toNat then true
    else if b.toNat < a.toNat then false
    else charListLe as bs

/-- Python string comparison a <= b. -/
def strLe (a b : String) : Bool :=
  charListLe a.data b.data

/-- Models the Python expression (a or b) on strings-or-None: the empty
string and None are falsy, anything else is returned unchanged. -/
def pyOr (a b : Option String) : Option String :=
  match a with
  | some s => if s = "" then b else some s
  | none => b

/-! ## markov_model.py : build_markov_chain -/

/-- One row of the loaded dataframe, keeping the columns build_markov_chain
reads: show id, position and song. -/
structure SongRow where
  show_id : String
  position : Int
  song : String
deriving DecidableEq, Repr

/-- The distinct show ids in key order, as the pandas groupby on show_id
iterates them. -/
def showIds (df : List SongRow) : List String :=
  sortLe strLe (df.map SongRow.show_id).dedup

/-- The songs of one show in ascending position order, as the per-group
sort of values on position produces them. -/
def songsOfShow (df : List SongRow) (sid : String) : List String :=
  (sortLe (fun a b => decide (a.position ≤ b.position))
    (df.filter (fun r => r.show_id == sid))).map SongRow.song

/-- All consecutive (current song, next song) pairs within each show: the
loop for i in range(len(songs) - 1) over every groupby group. -/
def transitionPairs (df : List SongRow) : List (String × String) :=
  (showIds df).flatMap (fun sid =>
    let songs := songsOfShow df sid
    songs.zip songs.tail)

/-- The multiset of songs observed right after curr, across all shows. -/
def nextsList (df : List SongRow) (curr : String) : List String :=
  (transitionPairs df).filterMap (fun p => if p.1 == curr then some p.2 else none)

/-- counts[curr][next] of build_markov_chain: how often next followed curr. -/
def pairCount (df : List SongRow) (curr next : String) : Nat :=
  (nextsList df curr).count next

/-- total = sum(next_dict.values()) for the key curr. -/
def totalCount (df : List SongRow) (curr : String) : Nat :=
  (((nextsList df curr).dedup).map (fun n => pairCount df curr n)).sum

/-- transitions[curr][next] = count / total, with the float division modelled
over the rationals. -/
def transitionProb (df : List SongRow) (curr next : String) : ℚ :=
  (pairCount df curr next : ℚ) / (totalCount df curr : ℚ)

/-- The sum of the probability values stored under the key curr. -/
def distSum (df : List SongRow) (curr : String) : ℚ :=
  (((nextsList df curr).dedup).map (fun n => transitionProb df curr n)).sum

/-- The keys of the counts dictionary: every song that was recorded as the
first component of some consecutive pair. -/
def tableKeys (df : List SongRow) : List String :=
  ((transitionPairs df).map Prod.fst).dedup

/-- build_markov_chain(df): the transitions dictionary as an association
list, mapping each key to its observed next songs with their
probabilities. -/
def build_markov_chain (df : List SongRow) : List (String × List (String × ℚ)) :=
  (tableKeys df).map (fun c =>
    (c, (nextsList df c).dedup.map (fun n => (n, transitionProb df c n))))

/-! ## markov_model.py : generate_setlist -/

/-- The transitions argument of generate_setlist: a dictionary from song to
a dictionary from next song to probability, as an association list. -/
abbrev TransTable : Type := List (String × List (String × ℚ))

/-- Models np.random.choice over a list of options given a draw from the
random stream: the draw selects an index uniformly via reduction modulo the
length.  Returns the empty string on an empty list (np.random.choice raises
there; callers guard that case). -/
def uniformPick (l : List String) (r : Nat) : String :=
  l.getD (r % l.length) ""

/-- Models np.random.choice(songs, p=probs) by inverse transform sampling: a
draw r in the unit interval walks the cumulative distribution. -/
def pickWeighted : List (String × ℚ) → ℚ → String
  | [], _ => ""
  | (s, p) :: rest, r => if r < p ∨ rest = [] then s else pickWeighted rest (r - p)

/-- The loop body of generate_setlist, iterated n = length - 1 times: i
indexes the injected random streams, current is the current song.  Returns
none when a dead-end recovery is attempted against a table with no keys,
where np.random.choice raises on the empty list. -/
def generateAux (t : TransTable) (urand : Nat → Nat) (wrand : Nat → ℚ) :
    Nat → Nat → String → Option (List String)
  | 0, _, _ => some []
  | n + 1, i, current =>
    match List.lookup current t with
    | some ((s, q) :: ps) =>
      let next := pickWeighted ((s, q) :: ps) (wrand i)
      (generateAux t urand wrand n (i + 1) next).map (fun l => next :: l)
    | some [] =>
      match t.map Prod.fst with
      | [] => none
      | k :: ks =>
        let next := uniformPick (k :: ks) (urand i)
        (generateAux t urand wrand n (i + 1) next).map (fun l => next :: l)
    | none =>
      match t.map Prod.fst with
      | [] => none
      | k :: ks =>
        let next := uniformPick (k :: ks) (urand i)
        (generateAux t urand wrand n (i + 1) next).map (fun l => next :: l)

/-- generate_setlist(transitions, start_song, length): the setlist starts as
[start_song] and the loop appends length - 1 further songs. -/
def generate_setlist (t : TransTable) (start : String) (length : Nat)
    (urand : Nat → Nat) (wrand : Nat → ℚ) : Option (List String) :=
  (generateAux t urand wrand (length - 1) 0 start).map (fun l => start :: l)

/-! ## fetch_setlists.py : get_with_backoff -/

/-- Outcome of the retry wrapper: the parsed successful body, an HTTP error
raised by raise_for_status, or the RuntimeError raised after the retry
budget is exhausted. -/
inductive HttpResult where
  | success (body : String)
  | httpError (status : Nat)
  | rateLimitExceeded
deriving DecidableEq, Repr

/-- The retry loop of get_with_backoff.  The remote is modelled as a stream
of (status, body) responses indexed by attempt number; the second component
of the result collects the sleep durations, in seconds as rationals.
raise_for_status raises exactly for statuses in [400, 600). -/
def backoffAux (responses : Nat → Nat × String) :
    Nat → Nat → ℚ → HttpResult × List ℚ
  | _, 0, _ => (.rateLimitExceeded, [])
  | attempt, fuel + 1, delay =>
    let r := responses attempt
    if r.1 ≠ 429 then
      if 400 ≤ r.1 ∧ r.1 < 600 then (.httpError r.1, []) else (.success r.2, [])
    else
      let res := backoffAux responses (attempt + 1) fuel (delay * 2)
      (res.1, delay :: res.2)

/-- get_with_backoff(url, params, max_retries): delay starts at 0.5 seconds
and doubles after every retry. -/
def get_with_backoff (responses : Nat → Nat × String) (max_retries : Nat) :
    HttpResult × List ℚ :=
  backoffAux responses 0 max_retries (1 / 2)

/-! ## fetch_setlists.py : search_artist ranking -/

/-- A candidate artist from the search endpoint, keeping the fields the
ranking reads. -/
structure ArtistC where
  name : Option String
deriving DecidableEq, Repr

/-- Lower-casing through the character list, modelling str.lower. -/
def strToLower (s : String) : String :=
  String.mk (s.data.map Char.toLower)

/-- Models Python str.startswith via the character lists. -/
def strStartsWith (hay needle : String) : Bool :=
  needle.data.isPrefixOf hay.data

/-- Models the Python substring test (needle in hay). -/
def strContains (hay needle : String) : Bool :=
  hay.data.tails.any (fun t => needle.data.isPrefixOf t)

/-- sort_key of search_artist: the match tier against the lower-cased query
paired with the lower-cased name. -/
def matchTier (queryLower : String) (a : ArtistC) : Nat × String :=
  let n := strToLower (a.name.getD "")
  if n = queryLower then (0, n)
  else if strStartsWith n queryLower then (1, n)
  else if strContains n queryLower then (2, n)
  else (3, n)

/-- Lexicographic order on (tier, lower-cased name), as Python compares the
key tuples. -/
def keyLe (a b : Nat × String) : Bool :=
  a.1 < b.1 || (a.1 == b.1 && strLe a.2 b.2)

/-- The candidate list search_artist presents for one page: the artists
sorted stably by sort_key, truncated to the first 10. -/
def rankArtists (query : String) (artists : List ArtistC) : List ArtistC :=
  let ql := strToLower query
  (sortLe (fun a b => keyLe (matchTier ql a) (matchTier ql b)) artists).take 10

/-! ## fetch_setlists.py : fetch_all_setlists_for_artist -/

/-- One page of the history endpoint: the setlist list plus the advisory
total and itemsPerPage fields (absent fields modelled as none). -/
structure ApiPage (α : Type) where
  setlist : List α
  total : Option Nat
  itemsPerPage : Option Nat

/-- items_per_page = int(data.get("itemsPerPage", len(page_setlists))). -/
def itemsPerPageVal {α : Type} (p : ApiPage α) : Nat :=
  p.itemsPerPage.getD p.setlist.length

/-- The pagination loop of fetch_all_setlists_for_artist, with the remote
modelled as a stream of pages indexed by page number.  Fuel bounds the
number of iterations; none marks fuel running out while the loop would
continue.  Returns the concatenation of all fetched pages. -/
def fetchAllAux {α : Type} (pages : Nat → ApiPage α) :
    Nat → Nat → Option (List α)
  | 0, _ => none
  | fuel + 1, page =>
    let ps := (pages page).setlist
    if ps.isEmpty then some []
    else if ps.length < itemsPerPageVal (pages page) then some ps
    else (fetchAllAux pages fuel (page + 1)).map (fun rest => ps ++ rest)

/-- fetch_all_setlists_for_artist starts at page 1. -/
def fetch_all_setlists_for_artist {α : Type} (pages : Nat → ApiPage α)
    (fuel : Nat) : Option (List α) :=
  fetchAllAux pages fuel 1

/-! ## fetch_setlists.py : normalize_setlist_to_rows -/

/-- A JSON field that may hold a single object or a list of objects. -/
inductive OneOrMany (α : Type) where
  | one (a : α)
  | many (l : List α)
deriving DecidableEq, Repr

/-- The shape coercion: if isinstance(x, dict): x = [x]. -/
def OneOrMany.toList {α : Type} : OneOrMany α → List α
  | .one a => [a]
  | .many l => l

/-- The nested cover object of a song entry. -/
structure CoverInfo where
  name : Option String
deriving DecidableEq, Repr

/-- One song entry of a set block. -/
structure SongEntry where
  name : Option String
  cover : Option CoverInfo
deriving DecidableEq, Repr

/-- One set block: the raw @encore attribute and the song field, which the
API may give as one object, a list, or not at all. -/
structure SetBlock where
  encore : Option String
  song : Option (OneOrMany SongEntry)
deriving DecidableEq, Repr

/-- The artist reference of a setlist record. -/
structure ArtistRef where
  name : Option String
deriving DecidableEq, Repr

/-- The country object nested in a city. -/
structure CountryRef where
  name : Option String
deriving DecidableEq, Repr

/-- The city object nested in a venue. -/
structure CityRef where
  name : Option String
  state : Option String
  stateCode : Option String
  country : Option CountryRef
deriving DecidableEq, Repr

/-- The venue object of a setlist record. -/
structure VenueRef where
  name : Option String
  city : Option CityRef
deriving DecidableEq, Repr

/-- The tour object of a setlist record, with the raw @festival attribute. -/
structure TourRef where
  name : Option String
  festival : Option String
deriving DecidableEq, Repr

/-- One setlist record from the API, keeping the fields the normalizer
reads.  The sets field is the set list under sets.set, none when either
level is absent. -/
structure SetlistRec where
  id : Option String
  eventDate : Option String
  artist : Option ArtistRef
  venue : Option VenueRef
  tour : Option TourRef
  sets : Option (OneOrMany SetBlock)
deriving DecidableEq, Repr

/-- One flat output row of normalize_setlist_to_rows. -/
structure FlatRow where
  show_id : Option String
  show_date : Option String
  city : Option String
  state : Option String
  country : Option String
  venue : Option String
  artist_name : Option String
  tour_name : Option String
  festival_flag : Nat
  set_index : Nat
  song_index : Nat
  song_name : Option String
  is_cover : Nat
  cover_artist : Option String
  encore_index : Option Int
deriving DecidableEq, Repr

/-- The date conversion of the normalizer: split on the dash and reassemble
as year-month-day when the split has exactly three fields (the tuple
unpacking day, month, year succeeds); otherwise the ValueError is caught
and the original string is kept. -/
def convertDate (s : String) : String :=
  match pySplit s '-' with
  | [d, m, y] => y ++ "-" ++ m ++ "-" ++ d
  | _ => s

/-- The show_date computation: a present, non-empty eventDate is converted;
None or the empty string (falsy) yields None. -/
def showDateOf (ed : Option String) : Option String :=
  match ed with
  | some s => if s = "" then none else some (convertDate s)
  | none => none

/-- Value of a digit string, most significant first. -/
def digitsToNat (l : List Char) : Nat :=
  l.foldl (fun acc c => acc * 10 + (c.toNat - 48)) 0

/-- Surrounding-whitespace strip over the character list, modelling
str.strip() for the common ASCII whitespace. -/
def trimChars (l : List Char) : List Char :=
  ((l.dropWhile Char.isWhitespace).reverse.dropWhile Char.isWhitespace).reverse

/-- Models Python int(str): strip surrounding whitespace, allow one optional
sign, then require a non-empty digit run; anything else raises ValueError,
modelled as none.  Underscore digit grouping is not modelled. -/
def parsePyInt (s : String) : Option Int :=
  match trimChars s.data with
  | '+' :: rest =>
    if rest ≠ [] ∧ rest.all Char.isDigit then some (digitsToNat rest : Int) else none
  | '-' :: rest =>
    if rest ≠ [] ∧ rest.all Char.isDigit then some (-(digitsToNat rest : Int)) else none
  | l =>
    if l ≠ [] ∧ l.all Char.isDigit then some (digitsToNat l : Int) else none

/-- The per-show fields computed once before the set loop. -/
structure RowCtx where
  show_id : Option String
  show_date : Option String
  city : Option String
  state : Option String
  country : Option String
  venue : Option String
  artist_name : Option String
  tour_name : Option String
  festival_flag : Nat
deriving DecidableEq, Repr

/-- The prologue of normalize_setlist_to_rows: every show-level field,
following the chains of (x or default).get(field) accesses. -/
def ctxOf (sl : SetlistRec) : RowCtx :=
  let cityObj := sl.venue.bind VenueRef.city
  { show_id := sl.id
    show_date := showDateOf sl.eventDate
    city := cityObj.bind CityRef.name
    state := pyOr (cityObj.bind CityRef.state) (cityObj.bind CityRef.stateCode)
    country := (cityObj.bind CityRef.country).bind CountryRef.name
    venue := sl.venue.bind VenueRef.name
    artist_name := sl.artist.bind ArtistRef.name
    tour_name := sl.tour.bind TourRef.name
    festival_flag := if sl.tour.bind TourRef.festival = some "true" then 1 else 0 }

/-- sets_obj after the shape coercion: the set list, empty when absent. -/
def setsListOf (sl : SetlistRec) : List SetBlock :=
  match sl.sets with
  | some om => om.toList
  | none => []

/-- songs after the shape coercion: the song list of a block, empty when
absent. -/
def songsListOf (s : SetBlock) : List SongEntry :=
  match s.song with
  | some om => om.toList
  | none => []

/-- The encore index of a block: parse the raw @encore attribute when
present, with a failed parse (ValueError) falling back to None. -/
def encoreIndexOf (s : SetBlock) : Option Int :=
  s.encore.bind parsePyInt

/-- One appended row: the inner loop body over enumerate(songs). -/
def mkRow (ctx : RowCtx) (setIdx : Nat) (enc : Option Int) (songIdx : Nat)
    (song : SongEntry) : FlatRow :=
  { show_id := ctx.show_id
    show_date := ctx.show_date
    city := ctx.city
    state := ctx.state
    country := ctx.country
    venue := ctx.venue
    artist_name := ctx.artist_name
    tour_name := ctx.tour_name
    festival_flag := ctx.festival_flag
    set_index := setIdx
    song_index := songIdx
    song_name := song.name
    is_cover := if song.cover.isSome then 1 else 0
    cover_artist := song.cover.bind CoverInfo.name
    encore_index := enc }

/-- The inner loop over enumerate(songs), carrying the running song index. -/
def rowsOfSongs (ctx : RowCtx) (setIdx : Nat) (enc : Option Int) :
    Nat → List SongEntry → List FlatRow
  | _, [] => []
  | j, song :: rest => mkRow ctx setIdx enc j song :: rowsOfSongs ctx setIdx enc (j + 1) rest

/-- The outer loop over enumerate(sets_obj), carrying the running set
index. -/
def rowsOfSets (ctx : RowCtx) : Nat → List SetBlock → List FlatRow
  | _, [] => []
  | i, s :: rest =>
    rowsOfSongs ctx i (encoreIndexOf s) 0 (songsListOf s) ++ rowsOfSets ctx (i + 1) rest

/-- normalize_setlist_to_rows: one flat row per song of the record. -/
def normalize_setlist_to_rows (sl : SetlistRec) : List FlatRow :=
  rowsOfSets (ctxOf sl) 0 (setsListOf sl)

/-- The encore value the code would store on a row with the given set index:
the parsed @encore of the set block at that index of the coerced set list. -/
def encoreOfAt (sl : SetlistRec) (i : Nat) : Option Int :=
  match (setsListOf sl).get? i with
  | some s => encoreIndexOf s
  | none => none

/-! ## Concrete example inputs used by the witnesses -/

/-- A small dataframe: two shows, with song A followed by B and by C. -/
def dfEx : List SongRow :=
  [⟨"s1", 1, "A"⟩, ⟨"s1", 2, "B"⟩, ⟨"s1", 3, "A"⟩, ⟨"s2", 1, "A"⟩, ⟨"s2", 2, "C"⟩]

/-- A small two-key transition table with total probability one per key. -/
def tEx : TransTable :=
  [("A", [("B", 1)]), ("B", [("A", 1)])]

/-- A response stream: three rate-limit responses, then a success. -/
def respEx : Nat → Nat × String :=
  fun i => if i < 3 then (429, "") else (200, "ok")

/-- A page stream: page 1 returns two records although itemsPerPage is 20
and the advisory total claims 100 records exist. -/
def pagesEx : Nat → ApiPage Nat :=
  fun p => if p = 1 then ⟨[10, 20], some 100, some 20⟩ else ⟨[], some 100, some 20⟩

/-- A setlist record with two set blocks; the second has a malformed
@encore attribute. -/
def slEx : SetlistRec :=
  { id := some "show-1"
    eventDate := some "21-05-2023"
    artist := some ⟨some "The Band"⟩
    venue := some ⟨some "The Venue", some ⟨some "Springfield", none, some "IL", some ⟨some "USA"⟩⟩⟩
    tour := some ⟨some "World Tour", some "true"⟩
    sets := some (.many
      [⟨none, some (.many [⟨some "Opener", none⟩, ⟨some "Second", some ⟨some "Cover Band"⟩⟩])⟩,
       ⟨some "1x", some (.one ⟨some "Closer", none⟩)⟩]) }

/-- The row slEx produces for the song of its second set block. -/
def rowW : FlatRow :=
  mkRow (ctxOf slEx) 1 none 0 ⟨some "Closer", none⟩

/-- The row slEx produces for the first song of its first set block. -/
def rowW2 : FlatRow :=
  mkRow (ctxOf slEx) 0 none 0 ⟨some "Opener", none⟩

/-! ## Supporting lemmas -/

theorem sum_map_natCast {α : Type} (l : List α) (f : α → Nat) :
    (l.map fun a => ((f a : ℚ))).sum = ((l.map f).sum : ℚ) := by
  induction l with
  | nil => simp
  | cons h t ih => simp [ih]

theorem totalCount_eq_length (df : List SongRow) (curr : String) :
    totalCount df curr = (nextsList df curr).length := by
  unfold totalCount pairCount
  exact List.sum_map_count_dedup_eq_length _

theorem mem_nextsList (df : List SongRow) (curr next : String) :
    next ∈ nextsList df curr ↔ (curr, next) ∈ transitionPairs df := by
  unfold nextsList
  rw [List.mem_filterMap]
  constructor
  · rintro ⟨⟨a, b⟩, hp, hf⟩
    simp only [beq_iff_eq] at hf
    split at hf
    · rename_i h
      obtain rfl : b = next := by injection hf
      subst h
      exact hp
    · exact absurd hf (by simp)
  · intro h
    exact ⟨(curr, next), h, by simp⟩

theorem tableKeys_iff (df : List SongRow) (curr : String) :
    curr ∈ tableKeys df ↔ ∃ next, (curr, next) ∈ transitionPairs df := by
  unfold tableKeys
  rw [List.mem_dedup, List.mem_map]
  constructor
  · rintro ⟨⟨a, b⟩, hp, rfl⟩
    exact ⟨b, hp⟩
  · rintro ⟨next, h⟩
    exact ⟨(curr, next), h, rfl⟩

theorem totalCount_pos_of_mem_keys (df : List SongRow) (curr : String)
    (h : curr ∈ tableKeys df) : 0 < totalCount df curr := by
  rw [totalCount_eq_length, List.length_pos]
  obtain ⟨next, hn⟩ := (tableKeys_iff df curr).mp h
  intro hnil
  have hmem : next ∈ nextsList df curr := (mem_nextsList df curr next).mpr hn
  simp [hnil] at hmem

theorem sum_map_div (l : List String) (f : String → ℚ) (T : ℚ) :
    (l.map fun n => f n / T).sum = (l.map f).sum / T := by
  induction l with
  | nil => simp
  | cons h t ih => simp [ih, add_div]

theorem distSum_eq_one (df : List SongRow) (curr : String)
    (h : 0 < totalCount df curr) : distSum df curr = 1 := by
  unfold distSum transitionProb
  rw [sum_map_div, sum_map_natCast]
  have hnum : ((nextsList df curr).dedup.map fun n => pairCount df curr n).sum =
      totalCount df curr := rfl
  rw [hnum, div_self (by exact_mod_cast h.ne')]

theorem lookup_map_self {β : Type} (keys : List String) (f : String → β) (curr : String) :
    List.lookup curr (keys.map fun c => (c, f c)) =
      if curr ∈ keys then some (f curr) else none := by
  induction keys with
  | nil => simp [List.lookup]
  | cons k ks ih =>
    simp only [List.map_cons, List.lookup]
    by_cases h : curr = k
    · subst h
      simp
    · have hbeq : (curr == k) = false := beq_eq_false_iff_ne.mpr h
      simp [hbeq, h, ih]

/-! ## Claim C1 -/

/-- Claim C1: every key of the table built by build_markov_chain maps to a
probability distribution whose values sum to 1 within tolerance 1e-9, and a
key exists exactly for a song that was observed followed by another song
within the same show. -/
theorem build_markov_chain_valid (df : List SongRow) (curr : String) :
    (curr ∈ tableKeys df →
      |((((build_markov_chain df).lookup curr).getD []).map Prod.snd).sum - 1| ≤
        1 / 1000000000) ∧
    (curr ∈ tableKeys df ↔ ∃ next, (curr, next) ∈ transitionPairs df) ∧
    ((build_markov_chain df).lookup curr ≠ none ↔ curr ∈ tableKeys df) := by
  refine ⟨?_, tableKeys_iff df curr, ?_⟩
  · intro h
    unfold build_markov_chain
    rw [lookup_map_self, if_pos h]
    simp only [Option.getD_some, List.map_map]
    have hmap : ((nextsList df curr).dedup.map
        (Prod.snd ∘ fun n => (n, transitionProb df curr n))) =
        (nextsList df curr).dedup.map (fun n => transitionProb df curr n) := rfl
    rw [hmap]
    have hone : distSum df curr = 1 :=
      distSum_eq_one df curr (totalCount_pos_of_mem_keys df curr h)
    unfold distSum at hone
    rw [hone, sub_self, abs_zero]
    norm_num
  · unfold build_markov_chain
    rw [lookup_map_self]
    by_cases h : curr ∈ tableKeys df <;> simp [h]

/-- Witness for C1: the concrete dataframe dfEx has the key A, and its
distribution sums to 1 within tolerance. -/
theorem build_markov_chain_valid_witness :
    "A" ∈ tableKeys dfEx ∧
    |((((build_markov_chain dfEx).lookup "A").getD []).map Prod.snd).sum - 1| ≤
      1 / 1000000000 :=
  ⟨by decide, (build_markov_chain_valid dfEx "A").1 (by decide)⟩

/-! ## Claims C2 and C3 -/

theorem lookup_mem_values {α β : Type} [BEq α] (t : List (α × β)) (k : α) (v : β)
    (h : List.lookup k t = some v) : ∃ k2, (k2, v) ∈ t := by
  induction t with
  | nil => simp [List.lookup] at h
  | cons p rest ih =>
    obtain ⟨a, b⟩ := p
    simp only [List.lookup] at h
    split at h
    · obtain rfl : b = v := by injection h
      exact ⟨a, List.mem_cons_self _ _⟩
    · obtain ⟨k2, hm⟩ := ih h
      exact ⟨k2, List.mem_cons_of_mem _ hm⟩

theorem uniformPick_mem (l : List String) (r : Nat) (h : l ≠ []) :
    uniformPick l r ∈ l := by
  unfold uniformPick
  have hlt : r % l.length < l.length := Nat.mod_lt _ (List.length_pos.mpr h)
  rw [List.getD_eq_getElem?_getD, List.getElem?_eq_getElem hlt]
  exact List.getElem_mem hlt

theorem generateAux_length (t : TransTable) (urand : Nat → Nat) (wrand : Nat → ℚ)
    (hne : t ≠ []) (hwf : ∀ p ∈ t, p.2 ≠ []) :
    ∀ n i current, ∃ l, generateAux t urand wrand n i current = some l ∧ l.length = n := by
  intro n
  induction n with
  | zero => exact fun i current => ⟨[], rfl, rfl⟩
  | succ n ih =>
    intro i current
    cases hl : List.lookup current t with
    | some v =>
      cases v with
      | nil =>
        exfalso
        obtain ⟨k2, hm⟩ := lookup_mem_values t current [] hl
        exact hwf (k2, []) hm rfl
      | cons p ps =>
        obtain ⟨s, q⟩ := p
        obtain ⟨l, hrec, hlen⟩ := ih (i + 1) (pickWeighted ((s, q) :: ps) (wrand i))
        refine ⟨pickWeighted ((s, q) :: ps) (wrand i) :: l, ?_, by simp [hlen]⟩
        simp only [generateAux, hl]
        rw [hrec]
        rfl
    | none =>
      have hkeys : t.map Prod.fst ≠ [] := fun hm => hne (List.map_eq_nil_iff.mp hm)
      cases hk : t.map Prod.fst with
      | nil => exact absurd hk hkeys
      | cons k ks =>
        obtain ⟨l, hrec, hlen⟩ := ih (i + 1) (uniformPick (k :: ks) (urand i))
        refine ⟨uniformPick (k :: ks) (urand i) :: l, ?_, by simp [hlen]⟩
        simp only [generateAux, hl, hk]
        rw [hrec]
        rfl

/-- Claim C2: for a non-empty well-formed table (each key holds a non-empty
distribution, as the TransitionTable invariant requires), any start song and
any length of at least 1, generate_setlist returns exactly length songs; a
current song with no entry in the table is recovered by a uniform pick from
the keys, which are exactly the songs with outgoing transitions, and the
walk advances one element. -/
theorem generate_setlist_spec (t : TransTable) (start : String) (len : Nat)
    (urand : Nat → Nat) (wrand : Nat → ℚ)
    (hne : t ≠ []) (hwf : ∀ p ∈ t, p.2 ≠ []) (hlen : 1 ≤ len) :
    (∃ l, generate_setlist t start len urand wrand = some l ∧ l.length = len) ∧
    (∀ current n i, List.lookup current t = none →
      uniformPick (t.map Prod.fst) (urand i) ∈ t.map Prod.fst ∧
      generateAux t urand wrand (n + 1) i current =
        (generateAux t urand wrand n (i + 1) (uniformPick (t.map Prod.fst) (urand i))).map
          (fun l => uniformPick (t.map Prod.fst) (urand i) :: l)) := by
  constructor
  · obtain ⟨l, hgen, hlenl⟩ := generateAux_length t urand wrand hne hwf (len - 1) 0 start
    refine ⟨start :: l, by simp [generate_setlist, hgen], ?_⟩
    simp only [List.length_cons, hlenl]
    omega
  · intro current n i hl
    have hkeys : t.map Prod.fst ≠ [] := fun hm => hne (List.map_eq_nil_iff.mp hm)
    refine ⟨uniformPick_mem _ _ hkeys, ?_⟩
    cases hk : t.map Prod.fst with
    | nil => exact absurd hk hkeys
    | cons k ks => simp only [generateAux, hl, hk]

/-- Witness for C2: the table tEx, the absent start Z and length 3 produce a
three-element setlist. -/
theorem generate_setlist_spec_witness :
    ∃ l, generate_setlist tEx "Z" 3 (fun _ => 0) (fun _ => 0) = some l ∧ l.length = 3 :=
  (generate_setlist_spec tEx "Z" 3 (fun _ => 0) (fun _ => 0)
    (by decide) (by decide) (by decide)).1

/-- Counterexample to claim C3: against a table with zero entries and the
requested length 1, generate_setlist returns the one-element sequence of
the start song instead of failing. -/
theorem generate_setlist_empty_len_one :
    generate_setlist [] "Intro" 1 (fun _ => 0) (fun _ => 0) = some ["Intro"] := by
  decide

/-- Claim C3 as amended: with a table of zero entries, a requested length of
at least 2 reaches the dead-end recovery, whose random choice over the
empty key list fails (the EmptyModelError); length 1 instead returns the
seed alone without consulting the table. -/
theorem generate_setlist_empty_fails (start : String) (len : Nat)
    (urand : Nat → Nat) (wrand : Nat → ℚ) (h : 2 ≤ len) :
    generate_setlist [] start len urand wrand = none := by
  obtain ⟨m, hm⟩ : ∃ m, len - 1 = m + 1 := ⟨len - 2, by omega⟩
  unfold generate_setlist
  rw [hm]
  simp [generateAux, List.lookup]

/-- Witness for the amended C3 at length 2. -/
theorem generate_setlist_empty_fails_witness :
    generate_setlist [] "X" 2 (fun _ => 0) (fun _ => 0) = none :=
  generate_setlist_empty_fails "X" 2 (fun _ => 0) (fun _ => 0) (by decide)

/-! ## Claim C4 -/

/-- Counterexample to claim C4: the malformed input made of three
dash-separated words is not passed through unchanged; the tuple unpacking
succeeds and the fields are rearranged. -/
theorem convertDate_not_a_date :
    convertDate "not-a-date" = "date-a-not" ∧ convertDate "not-a-date" ≠ "not-a-date" := by
  decide

/-- Claim C4 as amended: the date conversion maps 21-05-2023 to 2023-05-21,
and a malformed event-date string is passed through unchanged exactly when
it does not split into three dash-separated fields; a malformed string with
three fields, such as not-a-date, is instead rearranged without failing. -/
theorem convertDate_amended :
    convertDate "21-05-2023" = "2023-05-21" ∧
    (∀ s : String, (pySplit s '-').length ≠ 3 → convertDate s = s) ∧
    convertDate "not-a-date" = "date-a-not" := by
  refine ⟨by decide, ?_, by decide⟩
  intro s h
  unfold convertDate
  cases hsp : pySplit s '-' with
  | nil => rfl
  | cons a l =>
    cases l with
    | nil => rfl
    | cons b l2 =>
      cases l2 with
      | nil => rfl
      | cons c l3 =>
        cases l3 with
        | nil => exact absurd (by rw [hsp]; rfl) h
        | cons d l4 => rfl

/-- Witness for the amended C4: a string with fewer than three fields is
kept unchanged. -/
theorem convertDate_amended_witness :
    (pySplit "2023" '-').length ≠ 3 ∧ convertDate "2023" = "2023" :=
  ⟨by decide, convertDate_amended.2.1 "2023" (by decide)⟩

/-! ## Claim C5 -/

theorem backoffAux_succ (responses : Nat → Nat × String) (attempt fuel : Nat)
    (delay : ℚ) :
    backoffAux responses attempt (fuel + 1) delay =
      if (responses attempt).1 ≠ 429 then
        if 400 ≤ (responses attempt).1 ∧ (responses attempt).1 < 600 then
          (.httpError (responses attempt).1, [])
        else (.success (responses attempt).2, [])
      else
        ((backoffAux responses (attempt + 1) fuel (delay * 2)).1,
          delay :: (backoffAux responses (attempt + 1) fuel (delay * 2)).2) := rfl

/-- Claim C5: three rate-limit responses followed by a success give exactly
three sleeps of 0.5, 1 and 2 seconds and then the successful body; five
consecutive rate-limit responses exhaust the default budget of 5 attempts
and fail with the rate-limit error; any other non-success status fails
immediately with no sleep. -/
theorem get_with_backoff_behavior (responses : Nat → Nat × String) :
    ((∀ i, i < 3 → (responses i).1 = 429) → (responses 3).1 = 200 →
      get_with_backoff responses 5 = (.success (responses 3).2, [1/2, 1, 2])) ∧
    ((∀ i, i < 5 → (responses i).1 = 429) →
      get_with_backoff responses 5 = (.rateLimitExceeded, [1/2, 1, 2, 4, 8])) ∧
    (∀ s, (responses 0).1 = s → s ≠ 429 → 400 ≤ s → s < 600 →
      get_with_backoff responses 5 = (.httpError s, [])) := by
  refine ⟨?_, ?_, ?_⟩
  · intro h429 h200
    have h0 : (responses 0).1 = 429 := h429 0 (by omega)
    have h1 : (responses 1).1 = 429 := h429 1 (by omega)
    have h2 : (responses 2).1 = 429 := h429 2 (by omega)
    have step3 : backoffAux responses 3 2 4 = (.success (responses 3).2, []) := by
      rw [show (2 : Nat) = 1 + 1 from rfl, backoffAux_succ, h200]
      norm_num
    have step2 : backoffAux responses 2 3 2 = (.success (responses 3).2, [2]) := by
      rw [show (3 : Nat) = 2 + 1 from rfl, backoffAux_succ, h2]
      norm_num [step3]
    have step1 : backoffAux responses 1 4 1 = (.success (responses 3).2, [1, 2]) := by
      rw [show (4 : Nat) = 3 + 1 from rfl, backoffAux_succ, h1]
      norm_num [step2]
    unfold get_with_backoff
    rw [show (5 : Nat) = 4 + 1 from rfl, backoffAux_succ, h0]
    norm_num [step1]
  · intro h429
    have h0 : (responses 0).1 = 429 := h429 0 (by omega)
    have h1 : (responses 1).1 = 429 := h429 1 (by omega)
    have h2 : (responses 2).1 = 429 := h429 2 (by omega)
    have h3 : (responses 3).1 = 429 := h429 3 (by omega)
    have h4 : (responses 4).1 = 429 := h429 4 (by omega)
    have step4 : backoffAux responses 4 1 8 = (.rateLimitExceeded, [8]) := by
      rw [show (1 : Nat) = 0 + 1 from rfl, backoffAux_succ, h4]
      norm_num [backoffAux]
    have step3 : backoffAux responses 3 2 4 = (.rateLimitExceeded, [4, 8]) := by
      rw [show (2 : Nat) = 1 + 1 from rfl, backoffAux_succ, h3]
      norm_num [step4]
    have step2 : backoffAux responses 2 3 2 = (.rateLimitExceeded, [2, 4, 8]) := by
      rw [show (3 : Nat) = 2 + 1 from rfl, backoffAux_succ, h2]
      norm_num [step3]
    have step1 : backoffAux responses 1 4 1 = (.rateLimitExceeded, [1, 2, 4, 8]) := by
      rw [show (4 : Nat) = 3 + 1 from rfl, backoffAux_succ, h1]
      norm_num [step2]
    unfold get_with_backoff
    rw [show (5 : Nat) = 4 + 1 from rfl, backoffAux_succ, h0]
    norm_num [step1]
  · intro s hs hne h400 h600
    unfold get_with_backoff
    rw [show (5 : Nat) = 4 + 1 from rfl, backoffAux_succ, hs]
    simp [hne, h400, h600]

/-- Witness for C5: the concrete stream respEx of three rate limits then a
success yields the three documented sleeps and the body. -/
theorem get_with_backoff_behavior_witness :
    get_with_backoff respEx 5 = (.success "ok", [1/2, 1, 2]) :=
  (get_with_backoff_behavior respEx).1
    (by intro i hi; interval_cases i <;> rfl) rfl

/-! ## Claim C6 -/

theorem fetchAllAux_total_irrelevant {α : Type} (pages pages2 : Nat → ApiPage α)
    (h : ∀ p, (pages p).setlist = (pages2 p).setlist ∧
      (pages p).itemsPerPage = (pages2 p).itemsPerPage) :
    ∀ fuel page, fetchAllAux pages fuel page = fetchAllAux pages2 fuel page := by
  intro fuel
  induction fuel with
  | zero => intro page; rfl
  | succ fuel ih =>
    intro page
    have hs := (h page).1
    have hipp : itemsPerPageVal (pages page) = itemsPerPageVal (pages2 page) := by
      unfold itemsPerPageVal
      rw [(h page).2, hs]
    simp only [fetchAllAux]
    rw [hs, hipp, ih]

/-- Claim C6: the pagination loop stops exactly at an empty page or at a
page strictly smaller than the declared items-per-page value, and otherwise
continues to the next page; the advisory total field has no influence on
the result, and in particular a short page stops the loop whatever the
total claims. -/
theorem fetch_all_stop_conditions {α : Type} (pages pages2 : Nat → ApiPage α)
    (fuel page : Nat) :
    ((pages page).setlist = [] → fetchAllAux pages (fuel + 1) page = some []) ∧
    ((pages page).setlist ≠ [] →
      (pages page).setlist.length < itemsPerPageVal (pages page) →
      fetchAllAux pages (fuel + 1) page = some (pages page).setlist) ∧
    ((pages page).setlist ≠ [] →
      ¬ (pages page).setlist.length < itemsPerPageVal (pages page) →
      fetchAllAux pages (fuel + 1) page =
        (fetchAllAux pages fuel (page + 1)).map
          (fun rest => (pages page).setlist ++ rest)) ∧
    ((∀ p, (pages p).setlist = (pages2 p).setlist ∧
        (pages p).itemsPerPage = (pages2 p).itemsPerPage) →
      fetch_all_setlists_for_artist pages fuel =
        fetch_all_setlists_for_artist pages2 fuel) := by
  refine ⟨?_, ?_, ?_, ?_⟩
  · intro h
    simp [fetchAllAux, h]
  · intro h hlt
    simp [fetchAllAux, List.isEmpty_iff, h, hlt]
  · intro h hlt
    simp [fetchAllAux, List.isEmpty_iff, h, hlt]
  · intro h
    unfold fetch_all_setlists_for_artist
    exact fetchAllAux_total_irrelevant pages pages2 h fuel 1

/-- Witness for C6: a first page of two records with a declared
items-per-page of 20 and an advisory total of 100 stops the loop at once
with just those two records. -/
theorem fetch_all_stop_conditions_witness :
    (pagesEx 1).setlist ≠ [] ∧
    (pagesEx 1).setlist.length < itemsPerPageVal (pagesEx 1) ∧
    fetchAllAux pagesEx 1 1 = some [10, 20] :=
  ⟨by decide, by decide,
    (fetch_all_stop_conditions pagesEx pagesEx 0 1).2.1 (by decide) (by decide)⟩

/-! ## Claim C7 -/

/-- Claim C7: for the query Beatles, the ranking presents the three
candidates as Beatles (exact match, tier 0), Beatles Tribute Band
(starts-with, tier 1), The Beatles (contains, tier 2). -/
theorem search_artist_ranking_example :
    rankArtists "Beatles"
        [⟨some "Beatles"⟩, ⟨some "The Beatles"⟩, ⟨some "Beatles Tribute Band"⟩] =
      [⟨some "Beatles"⟩, ⟨some "Beatles Tribute Band"⟩, ⟨some "The Beatles"⟩] := by
  decide

/-! ## Claims C8, C9 and C10 -/

theorem rowsOfSets_replace (ctx : RowCtx) (s s2 : SetBlock)
    (henc : s.encore = s2.encore) (hsongs : songsListOf s = songsListOf s2)
    (pre post : List SetBlock) :
    ∀ i, rowsOfSets ctx i (pre ++ s :: post) = rowsOfSets ctx i (pre ++ s2 :: post) := by
  induction pre with
  | nil =>
    intro i
    simp only [List.nil_append, rowsOfSets]
    rw [hsongs]
    unfold encoreIndexOf
    rw [henc]
  | cons b pre ih =>
    intro i
    simp only [List.cons_append, rowsOfSets]
    exact congrArg
      (fun l => rowsOfSongs ctx i (encoreIndexOf b) 0 (songsListOf b) ++ l) (ih (i + 1))

/-- Claim C8: normalization is shape-invariant.  A sets field holding a
single set block normalizes exactly as the one-element list of that block,
and a set block whose song field holds a single song entry normalizes
exactly as the same block with the one-element list of that entry, in any
position among the blocks. -/
theorem normalize_shape_invariant :
    (∀ (sl : SetlistRec) (b : SetBlock),
      normalize_setlist_to_rows { sl with sets := some (.one b) } =
        normalize_setlist_to_rows { sl with sets := some (.many [b]) }) ∧
    (∀ (sl : SetlistRec) (pre post : List SetBlock) (enc : Option String) (x : SongEntry),
      normalize_setlist_to_rows
          { sl with sets := some (.many (pre ++ (⟨enc, some (.one x)⟩ : SetBlock) :: post)) } =
        normalize_setlist_to_rows
          { sl with sets := some (.many (pre ++ (⟨enc, some (.many [x])⟩ : SetBlock) :: post)) }) := by
  constructor
  · intro sl b
    rfl
  · intro sl pre post enc x
    exact rowsOfSets_replace _ ⟨enc, some (.one x)⟩ ⟨enc, some (.many [x])⟩
      rfl rfl pre post 0

theorem mem_rowsOfSongs (ctx : RowCtx) (setIdx : Nat) (enc : Option Int) :
    ∀ (j : Nat) (songs : List SongEntry) (row : FlatRow),
      row ∈ rowsOfSongs ctx setIdx enc j songs →
      ∃ k song, row = mkRow ctx setIdx enc k song := by
  intro j songs
  induction songs generalizing j with
  | nil => intro row h; simp [rowsOfSongs] at h
  | cons s rest ih =>
    intro row h
    simp only [rowsOfSongs, List.mem_cons] at h
    rcases h with rfl | h
    · exact ⟨j, s, rfl⟩
    · exact ih (j + 1) row h

theorem mem_rowsOfSets (ctx : RowCtx) :
    ∀ (blocks : List SetBlock) (i : Nat) (row : FlatRow),
      row ∈ rowsOfSets ctx i blocks →
      ∃ j k song block, blocks.get? j = some block ∧
        row = mkRow ctx (i + j) (encoreIndexOf block) k song := by
  intro blocks
  induction blocks with
  | nil => intro i row h; simp [rowsOfSets] at h
  | cons s rest ih =>
    intro i row h
    simp only [rowsOfSets, List.mem_append] at h
    rcases h with h | h
    · obtain ⟨k, song, rfl⟩ := mem_rowsOfSongs ctx i (encoreIndexOf s) 0 (songsListOf s) _ h
      exact ⟨0, k, song, s, rfl, by rw [Nat.add_zero]⟩
    · obtain ⟨j, k, song, block, hget, heq⟩ := ih (i + 1) _ h
      refine ⟨j + 1, k, song, block, by simpa using hget, ?_⟩
      rw [show i + (j + 1) = i + 1 + j from by omega]
      exact heq

/-- Claim C9: normalization never fails on the encore attribute; every
emitted row carries as encore_index exactly the integer parse of the
@encore attribute of its set block, which is None when the attribute is
absent or not parseable. -/
theorem normalize_encore_faithful (sl : SetlistRec) (row : FlatRow)
    (h : row ∈ normalize_setlist_to_rows sl) :
    row.encore_index = encoreOfAt sl row.set_index := by
  obtain ⟨j, k, song, block, hget, rfl⟩ :=
    mem_rowsOfSets (ctxOf sl) (setsListOf sl) 0 row h
  have hidx : (mkRow (ctxOf sl) (0 + j) (encoreIndexOf block) k song).set_index = j := by
    simp [mkRow]
  rw [hidx]
  unfold encoreOfAt
  rw [hget]
  rfl

/-- Witness for C9: the second set block of slEx has the unparseable
@encore value 1x, and its row carries a None encore index. -/
theorem normalize_encore_faithful_witness :
    rowW ∈ normalize_setlist_to_rows slEx ∧
    rowW.encore_index = encoreOfAt slEx rowW.set_index :=
  ⟨by decide, normalize_encore_faithful slEx rowW (by decide)⟩

/-- Claim C10: any two rows produced by one normalization call agree on all
nine show-level fields; only the per-song fields may differ. -/
theorem normalize_show_fields (sl : SetlistRec) (r1 r2 : FlatRow)
    (h1 : r1 ∈ normalize_setlist_to_rows sl) (h2 : r2 ∈ normalize_setlist_to_rows sl) :
    r1.show_id = r2.show_id ∧ r1.show_date = r2.show_date ∧ r1.city = r2.city ∧
    r1.state = r2.state ∧ r1.country = r2.country ∧ r1.venue = r2.venue ∧
    r1.artist_name = r2.artist_name ∧ r1.tour_name = r2.tour_name ∧
    r1.festival_flag = r2.festival_flag := by
  obtain ⟨j1, k1, song1, b1, hg1, rfl⟩ :=
    mem_rowsOfSets (ctxOf sl) (setsListOf sl) 0 r1 h1
  obtain ⟨j2, k2, song2, b2, hg2, rfl⟩ :=
    mem_rowsOfSets (ctxOf sl) (setsListOf sl) 0 r2 h2
  exact ⟨rfl, rfl, rfl, rfl, rfl, rfl, rfl, rfl, rfl⟩

/-- Witness for C10: two concrete rows of slEx from different set blocks
share all show-level fields. -/
theorem normalize_show_fields_witness :
    rowW ∈ normalize_setlist_to_rows slEx ∧ rowW2 ∈ normalize_setlist_to_rows slEx ∧
    (rowW.show_id = rowW2.show_id ∧ rowW.show_date = rowW2.show_date ∧
      rowW.city = rowW2.city ∧ rowW.state = rowW2.state ∧
      rowW.country = rowW2.country ∧ rowW.venue = rowW2.venue ∧
      rowW.artist_name = rowW2.artist_name ∧ rowW.tour_name = rowW2.tour_name ∧
      rowW.festival_flag = rowW2.festival_flag) :=
  ⟨by decide, by decide, normalize_show_fields slEx rowW rowW2 (by decide) (by decide)⟩
